import Mathlib

/-!
Verification of the dev-reserve-server reservation lifecycle engine.

The definitions below are a shallow embedding of the Go source:
  * `models` (`src/unnamed/part_000`): the `Environment` and `Reservation`
    records and the `FREE` / `RESERVED` status enumeration.
  * `db/user_repository.go`: `GetEnvironment`, `UpdateEnvironmentStatus`
    (a DynamoDB `UpdateItem` with an `attribute_exists(id)` condition).
  * `db/reservation_repository.go`: `CreateReservation`,
    `GetReservation`, `ListActiveReservations`, `ReleaseReservation`,
    `CheckExpiredReservations`.
  * the HTTP handlers (`src/unnamed/part_002`): request validation and
    the mapping of repository errors to HTTP status codes.

Time is modelled as `Nat` (minutes); DynamoDB tables are association
lists keyed by the `id` field; the DynamoDB transaction of two writes is
modelled as a single state update that performs both writes (or, when
its condition expression fails, performs neither).  Repository
operations that can fail return `Except RepoError`; an error leaves the
state unchanged, matching the atomicity of the underlying transaction.
-/

namespace DevReserve

/-- Status enumeration `EnvironmentStatus` from `models`: `FREE` or `RESERVED`. -/
inductive EnvironmentStatus where
  | FREE
  | RESERVED
  deriving DecidableEq, Repr

/-- The `Environment` record from `models`. -/
structure Environment where
  id : String
  name : String
  description : String
  status : EnvironmentStatus
  createdBy : String
  createdAt : Nat
  lastUpdated : Nat
  deriving DecidableEq, Repr

/-- The `Reservation` record from `models`. -/
structure Reservation where
  id : String
  environmentId : String
  username : String
  startTime : Nat
  endTime : Nat
  feature : String
  gitBranch : String
  jiraUrl : String
  createdAt : Nat
  lastUpdated : Nat
  deriving DecidableEq, Repr

/-- The distinct error values produced by the repository layer.  The Go
code returns `fmt.Errorf` strings; each constructor stands for one of
those strings (`message` below recovers the text).  `conditionFailed`
stands for a DynamoDB conditional-check failure surfaced by
`UpdateItem` / `TransactWriteItems`. -/
inductive RepoError where
  | envNotFound
  | envAlreadyReserved
  | reservationNotFound
  | notYourReservation
  | conditionFailed
  deriving DecidableEq, Repr

/-- The `err.Error()` text of each repository error, as written in the Go
source. -/
def RepoError.message : RepoError → String
  | .envNotFound => "environment not found"
  | .envAlreadyReserved => "environment is already reserved"
  | .reservationNotFound => "reservation not found"
  | .notYourReservation => "you can only release your own reservations"
  | .conditionFailed => "conditional check failed"

/-- The persistent state: the Environments table and the Reservations
table. -/
structure DB where
  environments : List Environment
  reservations : List Reservation
  deriving DecidableEq, Repr

/-- Go `EnvironmentRepository.GetEnvironment`: point lookup by id. -/
def getEnvironment (db : DB) (id : String) : Option Environment :=
  db.environments.find? (fun e => e.id == id)

/-- The update expression `SET #status = :status, #lastUpdated =
:lastUpdated` applied to every record of the Environments table whose
key matches `id` (a DynamoDB key matches at most one record). -/
def setEnvironmentFields (envs : List Environment) (id : String)
    (status : EnvironmentStatus) (now : Nat) : List Environment :=
  envs.map (fun e => if e.id == id then { e with status := status, lastUpdated := now } else e)

/-- Go `EnvironmentRepository.UpdateEnvironmentStatus`: an `UpdateItem`
guarded by `attribute_exists(id)`; it fails (and writes nothing) when no
environment with the given id exists. -/
def UpdateEnvironmentStatus (db : DB) (id : String) (status : EnvironmentStatus)
    (now : Nat) : Except RepoError DB :=
  if db.environments.any (fun e => e.id == id) then
    .ok { db with environments := setEnvironmentFields db.environments id status now }
  else
    .error .conditionFailed

/-- The item a DynamoDB unconditioned `Update` creates when the key is
absent: only the key and the written attributes are present. -/
def blankEnvRecord (id : String) (status : EnvironmentStatus) (now : Nat) : Environment :=
  { id := id, name := "", description := "", status := status, createdBy := "",
    createdAt := 0, lastUpdated := now }

/-- The unconditioned environment `Update` issued inside
`ReleaseReservation`'s transaction: DynamoDB upsert semantics — if the
key exists the matching record is updated, otherwise a fresh item
carrying only the key and the written attributes is created. -/
def upsertEnvironmentStatus (envs : List Environment) (id : String)
    (status : EnvironmentStatus) (now : Nat) : List Environment :=
  if envs.any (fun e => e.id == id) then
    setEnvironmentFields envs id status now
  else
    envs ++ [blankEnvRecord id status now]

/-- Go `ReservationRepository.GetReservation`: point lookup by id. -/
def GetReservation (db : DB) (id : String) : Option Reservation :=
  db.reservations.find? (fun r => r.id == id)

/-- Go `ReservationRepository.ListActiveReservations`: scan with the filter
`endTime > now`. -/
def ListActiveReservations (db : DB) (now : Nat) : List Reservation :=
  db.reservations.filter (fun r => now < r.endTime)

/-- The `TransactWriteItems` call of `CreateReservation`: put the
reservation record and update the environment to `RESERVED`, guarded by
the condition expression `#status = :expectedStatus` (expected `FREE`)
evaluated at commit time; on condition failure nothing is written. -/
def transactCreateReservation (db : DB) (stored : Reservation) (now : Nat) :
    Except RepoError DB :=
  match getEnvironment db stored.environmentId with
  | some env =>
    if env.status == .FREE then
      .ok { db with
        reservations := db.reservations ++ [stored],
        environments := setEnvironmentFields db.environments stored.environmentId .RESERVED now }
    else .error .conditionFailed
  | none => .error .conditionFailed

/-- Go `ReservationRepository.CreateReservation`.  Reads the environment
(not-found / already-reserved checks), overwrites the caller record's
`id` with a freshly generated UUID (`newId` models `uuid.New()`) and its
`createdAt` / `lastUpdated` with `now`, then commits the transaction. -/
def CreateReservation (db : DB) (reservation : Reservation) (newId : String)
    (now : Nat) : Except RepoError (Reservation × DB) :=
  match getEnvironment db reservation.environmentId with
  | none => .error .envNotFound
  | some env =>
    if env.status == .FREE then
      let stored := { reservation with id := newId, createdAt := now, lastUpdated := now }
      match transactCreateReservation db stored now with
      | .ok db2 => .ok (stored, db2)
      | .error e => .error e
    else .error .envAlreadyReserved

/-- Go `ReservationRepository.ReleaseReservation`: look the reservation up,
check ownership, then atomically truncate its `endTime` to `now` and
force the environment's status to `FREE` (no condition on the prior
status). -/
def ReleaseReservation (db : DB) (id : String) (username : String) (now : Nat) :
    Except RepoError DB :=
  match GetReservation db id with
  | none => .error .reservationNotFound
  | some reservation =>
    if reservation.username == username then
      .ok { db with
        reservations := db.reservations.map (fun x =>
          if x.id == id then { x with endTime := now, lastUpdated := now } else x),
        environments := upsertEnvironmentStatus db.environments reservation.environmentId .FREE now }
    else .error .notYourReservation

/-- The loop body of `CheckExpiredReservations`: for each listed
reservation with `now.After(endTime)`, free its environment; on the
first failure the function returns the error at once (the Go `return`),
keeping the updates already committed. -/
def sweepLoop (checkNow : Nat) : List Reservation → DB → DB × Option RepoError
  | [], db => (db, none)
  | r :: rest, db =>
    if r.endTime < checkNow then
      match UpdateEnvironmentStatus db r.environmentId .FREE checkNow with
      | .ok db2 => sweepLoop checkNow rest db2
      | .error e => (db, some e)
    else sweepLoop checkNow rest db

/-- Go `ReservationRepository.CheckExpiredReservations`: one sweeper cycle.
`listNow` is the `time.Now()` used inside `ListActiveReservations`;
`checkNow` is the `time.Now()` taken just after, used for the expiry
comparison (`listNow ≤ checkNow` in any execution). -/
def CheckExpiredReservations (db : DB) (listNow checkNow : Nat) : DB × Option RepoError :=
  sweepLoop checkNow (ListActiveReservations db listNow) db

/-- The database as it stands after a `CreateReservation` call, error
paths included: a failed call writes nothing (the checks precede the
transaction and a failed DynamoDB transaction is all-or-nothing). -/
def createResultDB (db : DB) (reservation : Reservation) (newId : String) (now : Nat) : DB :=
  match CreateReservation db reservation newId now with
  | .ok (_, db2) => db2
  | .error _ => db

/-- The database as it stands after a `ReleaseReservation` call, error
paths included: a failed call writes nothing. -/
def releaseResultDB (db : DB) (id : String) (username : String) (now : Nat) : DB :=
  match ReleaseReservation db id username now with
  | .ok db2 => db2
  | .error _ => db

/-- Request body `ReservationCreateRequest` from `models`;
`durationMins` is a Go `int`, modelled as `Int`. -/
structure ReservationCreateRequest where
  environmentId : String
  durationMins : Int
  feature : String
  gitBranch : String
  jiraUrl : String
  deriving DecidableEq, Repr

/-- What a handler writes to the response: `RespondWithError(w, status,
msg)` or `RespondWithSuccess(w, payload)`. -/
inductive HandlerResult (α : Type) where
  | failure (status : Nat) (msg : String)
  | success (payload : α)
  deriving DecidableEq, Repr

/-- Go `ReservationHandler.CreateReservation` HTTP handler,
from request validation on (method / auth / body-parse failures are
outside the model).  `user` is the authenticated principal from the
request context, `newId` the UUID the repository will generate. -/
def handlerCreateReservation (db : DB) (user : String) (req : ReservationCreateRequest)
    (newId : String) (now : Nat) : HandlerResult Reservation × DB :=
  if req.environmentId == "" then (.failure 400 "Environment ID is required", db)
  else if req.durationMins < 10 then (.failure 400 "Duration must be at least 10 minutes", db)
  else if req.durationMins > 4320 then (.failure 400 "Duration cannot exceed 3 days (4320 minutes)", db)
  else if req.feature == "" then (.failure 400 "Feature description is required", db)
  else
    match getEnvironment db req.environmentId with
    | none => (.failure 404 "Environment not found", db)
    | some env =>
      if env.status != .FREE then (.failure 400 "Environment is already reserved", db)
      else
        let rsv : Reservation := {
          id := "", environmentId := req.environmentId, username := user,
          startTime := now, endTime := now + req.durationMins.toNat,
          feature := req.feature, gitBranch := req.gitBranch, jiraUrl := req.jiraUrl,
          createdAt := 0, lastUpdated := 0 }
        match CreateReservation db rsv newId now with
        | .error e => (.failure 500 ("Failed to create reservation: " ++ e.message), db)
        | .ok (created, db2) => (.success created, db2)

/-- Go `ReservationHandler.ReleaseReservation` HTTP handler,
from the URL-parameter check on: every repository error is answered with
`http.StatusInternalServerError` and the error's text appended to a
fixed prefix. -/
def handlerReleaseReservation (db : DB) (user : String) (id : String) (now : Nat) :
    HandlerResult String × DB :=
  if id == "" then (.failure 400 "Reservation ID is required", db)
  else
    match ReleaseReservation db id user now with
    | .error e => (.failure 500 ("Failed to release reservation: " ++ e.message), db)
    | .ok db2 => (.success "Reservation released successfully", db2)

/-- Number of reservations referencing `envId` that are active
(`endTime > now`) — the quantity the mutual-exclusion invariant bounds. -/
def countActive (db : DB) (envId : String) (now : Nat) : Nat :=
  db.reservations.countP (fun r => r.environmentId == envId && now < r.endTime)

/-- The mutual-exclusion invariant together with the registry/ledger
coupling that makes it inductive: each environment has at most one
active reservation, and an environment with an active reservation is
recorded `RESERVED`. -/
def statusInvariant (db : DB) (now : Nat) : Prop :=
  ∀ envId : String,
    countActive db envId now ≤ 1 ∧
    (1 ≤ countActive db envId now →
      ∀ e ∈ db.environments, e.id = envId → e.status = .RESERVED)

/-- States reachable from a reservation-free initial state by successful
Reserve, Release and Sweeper-cycle steps, at nondecreasing times. -/
inductive Reachable : DB → Nat → Prop where
  | init (db : DB) (t : Nat) : db.reservations = [] → Reachable db t
  | reserveStep {db : DB} {t : Nat} (rsv : Reservation) (newId : String) (t2 : Nat)
      (created : Reservation) (db2 : DB) :
      Reachable db t → t ≤ t2 →
      CreateReservation db rsv newId t2 = .ok (created, db2) → Reachable db2 t2
  | releaseStep {db : DB} {t : Nat} (id user : String) (t2 : Nat) (db2 : DB) :
      Reachable db t → t ≤ t2 →
      ReleaseReservation db id user t2 = .ok db2 → Reachable db2 t2
  | sweepStep {db : DB} {t : Nat} (t1 t2 : Nat) :
      Reachable db t → t ≤ t1 → t1 ≤ t2 →
      Reachable (CheckExpiredReservations db t1 t2).1 t2

/-- Like `Reachable`, but every Release step acts on a reservation that
is still active (`endTime > now`) at release time. -/
inductive ReachableSafe : DB → Nat → Prop where
  | init (db : DB) (t : Nat) : db.reservations = [] → ReachableSafe db t
  | reserveStep {db : DB} {t : Nat} (rsv : Reservation) (newId : String) (t2 : Nat)
      (created : Reservation) (db2 : DB) :
      ReachableSafe db t → t ≤ t2 →
      CreateReservation db rsv newId t2 = .ok (created, db2) → ReachableSafe db2 t2
  | releaseStep {db : DB} {t : Nat} (id user : String) (r : Reservation) (t2 : Nat) (db2 : DB) :
      ReachableSafe db t → t ≤ t2 →
      GetReservation db id = some r → t2 < r.endTime →
      ReleaseReservation db id user t2 = .ok db2 → ReachableSafe db2 t2
  | sweepStep {db : DB} {t : Nat} (t1 t2 : Nat) :
      ReachableSafe db t → t ≤ t1 → t1 ≤ t2 →
      ReachableSafe (CheckExpiredReservations db t1 t2).1 t2

/-! ### General list helpers -/

theorem find?_map_pres {α : Type} (f : α → α) (p : α → Bool) (hf : ∀ a, p (f a) = p a)
    (l : List α) : (l.map f).find? p = (l.find? p).map f := by
  induction l with
  | nil => rfl
  | cons a tl ih =>
    by_cases h : p a = true
    · rw [List.map_cons, List.find?_cons_of_pos _ (by rw [hf]; exact h),
        List.find?_cons_of_pos _ h, Option.map_some']
    · rw [List.map_cons, List.find?_cons_of_neg _ (by rw [hf]; exact h),
        List.find?_cons_of_neg _ h, ih]

theorem find?_append_of_none {α : Type} {p : α → Bool} {l1 : List α} (l2 : List α)
    (h : l1.find? p = none) : (l1 ++ l2).find? p = l2.find? p := by
  induction l1 with
  | nil => rfl
  | cons a tl ih =>
    by_cases hpa : p a = true
    · rw [List.find?_cons_of_pos _ hpa] at h; exact absurd h (by simp)
    · rw [List.find?_cons_of_neg _ hpa] at h
      rw [List.cons_append, List.find?_cons_of_neg _ hpa]
      exact ih h

theorem two_le_countP {α : Type} (p : α → Bool) {l : List α} :
    ∀ {a b : α}, a ∈ l → b ∈ l → a ≠ b → p a = true → p b = true → 2 ≤ l.countP p := by
  induction l with
  | nil => intro a b ha _ _ _ _; cases ha
  | cons c tl ih =>
    intro a b ha hb hab hpa hpb
    rcases List.mem_cons.mp ha with rfl | ha2
    · have hb2 : b ∈ tl := by
        rcases List.mem_cons.mp hb with rfl | h
        · exact absurd rfl hab
        · exact h
      rw [List.countP_cons, if_pos hpa]
      have h1 : 0 < tl.countP p := List.countP_pos.mpr ⟨b, hb2, hpb⟩
      omega
    · rcases List.mem_cons.mp hb with rfl | hb2
      · rw [List.countP_cons, if_pos hpb]
        have h1 : 0 < tl.countP p := List.countP_pos.mpr ⟨a, ha2, hpa⟩
        omega
      · have h1 := ih ha2 hb2 hab hpa hpb
        rw [List.countP_cons]
        omega

/-! ### Facts about the environment registry writes -/

theorem upsert_find_status (envs : List Environment) (id : String)
    (st : EnvironmentStatus) (now : Nat) :
    ((upsertEnvironmentStatus envs id st now).find? (fun e => e.id == id)).map
      Environment.status = some st := by
  unfold upsertEnvironmentStatus
  by_cases h : envs.any (fun e => e.id == id) = true
  · rw [if_pos h]
    unfold setEnvironmentFields
    rw [find?_map_pres _ _ (fun a => by by_cases ha : (a.id == id) = true <;> simp [ha])]
    cases hfe : envs.find? (fun e => e.id == id) with
    | none =>
      obtain ⟨e, he, hpe⟩ := List.any_eq_true.mp h
      exact absurd hpe (List.find?_eq_none.mp hfe e he)
    | some e0 =>
      have hp : e0.id = id := by simpa using List.find?_some hfe
      simp [hp]
  · rw [if_neg h]
    have hnone : envs.find? (fun e => e.id == id) = none := by
      rw [List.find?_eq_none]
      intro x hx hpx
      exact h (List.any_eq_true.mpr ⟨x, hx, hpx⟩)
    rw [find?_append_of_none _ hnone]
    simp [blankEnvRecord]

/-! ### C3: Reserve fails cleanly on a non-FREE or missing environment -/

/-- C3: a Reserve call against an environment whose status is not FREE
fails with the conflict error and writes nothing; a Reserve call against
an unknown environment id fails with not-found and writes nothing. -/
theorem c3_reserve_conflict_and_notfound (db : DB) (rsv : Reservation)
    (newId : String) (now : Nat) :
    (∀ env, getEnvironment db rsv.environmentId = some env → env.status ≠ .FREE →
      CreateReservation db rsv newId now = .error .envAlreadyReserved ∧
      createResultDB db rsv newId now = db) ∧
    (getEnvironment db rsv.environmentId = none →
      CreateReservation db rsv newId now = .error .envNotFound ∧
      createResultDB db rsv newId now = db) := by
  constructor
  · intro env henv hst
    have h1 : CreateReservation db rsv newId now = .error .envAlreadyReserved := by
      have hb : (env.status == EnvironmentStatus.FREE) = false := by simpa using hst
      unfold CreateReservation
      rw [henv]
      simp [hb]
    exact ⟨h1, by unfold createResultDB; rw [h1]⟩
  · intro henv
    have h1 : CreateReservation db rsv newId now = .error .envNotFound := by
      unfold CreateReservation
      rw [henv]
    exact ⟨h1, by unfold createResultDB; rw [h1]⟩

/-- An environment already reserved, for the C3 witness. -/
def envReservedW : Environment :=
  { id := "e1", name := "E", description := "", status := .RESERVED,
    createdBy := "admin", createdAt := 0, lastUpdated := 0 }

/-- A one-environment database whose environment is RESERVED. -/
def dbReservedW : DB := { environments := [envReservedW], reservations := [] }

/-- An empty database (no environments, no reservations). -/
def dbEmptyW : DB := { environments := [], reservations := [] }

/-- A caller-supplied reservation record aimed at `e1`. -/
def rsvW : Reservation :=
  { id := "caller-id", environmentId := "e1", username := "alice", startTime := 0,
    endTime := 30, feature := "f", gitBranch := "", jiraUrl := "", createdAt := 7,
    lastUpdated := 7 }

theorem c3_witness :
    getEnvironment dbReservedW "e1" = some envReservedW ∧
    envReservedW.status ≠ .FREE ∧
    (CreateReservation dbReservedW rsvW "n1" 5 = .error .envAlreadyReserved ∧
      createResultDB dbReservedW rsvW "n1" 5 = dbReservedW) ∧
    getEnvironment dbEmptyW "e1" = none ∧
    (CreateReservation dbEmptyW rsvW "n1" 5 = .error .envNotFound ∧
      createResultDB dbEmptyW rsvW "n1" 5 = dbEmptyW) :=
  ⟨by decide, by decide,
    (c3_reserve_conflict_and_notfound dbReservedW rsvW "n1" 5).1 envReservedW
      (by decide) (by decide),
    by decide,
    (c3_reserve_conflict_and_notfound dbEmptyW rsvW "n1" 5).2 (by decide)⟩

/-! ### C4: Release is unconditional on the resource state and the clock -/

/-- C4: for an existing reservation whose holder matches the requester,
Release succeeds, truncates the reservation's endTime to the release
time, and forces the environment's status to FREE — with no hypothesis
on the environment's prior status and none on whether the reservation's
endTime has already passed. -/
theorem c4_release_unconditional (db : DB) (id user : String) (now : Nat)
    (r : Reservation) (hfind : GetReservation db id = some r)
    (hold : r.username = user) :
    ∃ db2, ReleaseReservation db id user now = .ok db2 ∧
      GetReservation db2 id = some { r with endTime := now, lastUpdated := now } ∧
      (getEnvironment db2 r.environmentId).map Environment.status = some .FREE := by
  have hrel : ReleaseReservation db id user now = .ok { db with
      reservations := db.reservations.map (fun x =>
        if x.id == id then { x with endTime := now, lastUpdated := now } else x),
      environments := upsertEnvironmentStatus db.environments r.environmentId .FREE now } := by
    have hb : (r.username == user) = true := by simpa using hold
    unfold ReleaseReservation
    rw [hfind]
    simp [hb]
  refine ⟨_, hrel, ?_, ?_⟩
  · unfold GetReservation at hfind ⊢
    rw [find?_map_pres _ _ (fun a => by by_cases ha : (a.id == id) = true <;> simp [ha])]
    rw [hfind, Option.map_some']
    have hp : (r.id == id) = true := by simpa using List.find?_some hfind
    rw [if_pos hp]
  · unfold getEnvironment
    exact upsert_find_status db.environments r.environmentId .FREE now

/-- An expired reservation held by alice on the RESERVED environment
`e1`, for the C4 witness: release at time 9 > endTime 5 still succeeds
and frees `e1`. -/
def rsvExpiredW : Reservation :=
  { id := "r1", environmentId := "e1", username := "alice", startTime := 0,
    endTime := 5, feature := "f", gitBranch := "", jiraUrl := "", createdAt := 0,
    lastUpdated := 0 }

/-- Database for the C4 witness. -/
def dbReleaseW : DB := { environments := [envReservedW], reservations := [rsvExpiredW] }

theorem c4_witness :
    GetReservation dbReleaseW "r1" = some rsvExpiredW ∧
    rsvExpiredW.username = "alice" ∧
    (∃ db2, ReleaseReservation dbReleaseW "r1" "alice" 9 = .ok db2 ∧
      GetReservation db2 "r1" =
        some { rsvExpiredW with endTime := 9, lastUpdated := 9 } ∧
      (getEnvironment db2 rsvExpiredW.environmentId).map Environment.status =
        some .FREE) :=
  ⟨by decide, rfl,
    c4_release_unconditional dbReleaseW "r1" "alice" 9 rsvExpiredW (by decide) rfl⟩

/-! ### C7: Release fails cleanly on ownership and unknown ids -/

/-- C7: a Release call by a requester who is not the holder fails with
the permission error and modifies nothing; a Release call on an unknown
reservation id fails with not-found and modifies nothing. -/
theorem c7_release_permission_and_notfound (db : DB) (id user : String) (now : Nat) :
    (∀ r, GetReservation db id = some r → r.username ≠ user →
      ReleaseReservation db id user now = .error .notYourReservation ∧
      releaseResultDB db id user now = db) ∧
    (GetReservation db id = none →
      ReleaseReservation db id user now = .error .reservationNotFound ∧
      releaseResultDB db id user now = db) := by
  constructor
  · intro r hr hu
    have h1 : ReleaseReservation db id user now = .error .notYourReservation := by
      have hb : (r.username == user) = false := by simpa using hu
      unfold ReleaseReservation
      rw [hr]
      simp [hb]
    exact ⟨h1, by unfold releaseResultDB; rw [h1]⟩
  · intro hr
    have h1 : ReleaseReservation db id user now = .error .reservationNotFound := by
      unfold ReleaseReservation
      rw [hr]
    exact ⟨h1, by unfold releaseResultDB; rw [h1]⟩

theorem c7_witness :
    GetReservation dbReleaseW "r1" = some rsvExpiredW ∧
    rsvExpiredW.username ≠ "bob" ∧
    (ReleaseReservation dbReleaseW "r1" "bob" 3 = .error .notYourReservation ∧
      releaseResultDB dbReleaseW "r1" "bob" 3 = dbReleaseW) ∧
    GetReservation dbReleaseW "r9" = none ∧
    (ReleaseReservation dbReleaseW "r9" "bob" 3 = .error .reservationNotFound ∧
      releaseResultDB dbReleaseW "r9" "bob" 3 = dbReleaseW) :=
  ⟨by decide, by decide,
    (c7_release_permission_and_notfound dbReleaseW "r1" "bob" 3).1 rsvExpiredW
      (by decide) (by decide),
    by decide,
    (c7_release_permission_and_notfound dbReleaseW "r9" "bob" 3).2 (by decide)⟩

/-! ### Sweeper facts -/

theorem sweepLoop_reservations (t : Nat) (l : List Reservation) :
    ∀ db : DB, (sweepLoop t l db).1.reservations = db.reservations := by
  induction l with
  | nil => intro db; rfl
  | cons r rest ih =>
    intro db
    unfold sweepLoop
    by_cases hr : r.endTime < t
    · rw [if_pos hr]
      unfold UpdateEnvironmentStatus
      by_cases he : (db.environments.any fun e => e.id == r.environmentId) = true
      · rw [if_pos he]
        exact ih _
      · rw [if_neg he]
    · rw [if_neg hr]
      exact ih db

theorem sweepLoop_no_expired (t : Nat) (l : List Reservation) :
    ∀ db : DB, (∀ r ∈ l, ¬ r.endTime < t) → sweepLoop t l db = (db, none) := by
  induction l with
  | nil => intro db _; rfl
  | cons r rest ih =>
    intro db h
    unfold sweepLoop
    rw [if_neg (h r (List.mem_cons_self r rest))]
    exact ih db fun x hx => h x (List.mem_cons_of_mem _ hx)

/-- The fields of an environment record the sweeper is not allowed to
write: everything except `status` and `lastUpdated`. -/
def envFrameEq (e e2 : Environment) : Prop :=
  e2.id = e.id ∧ e2.name = e.name ∧ e2.description = e.description ∧
    e2.createdBy = e.createdBy ∧ e2.createdAt = e.createdAt

theorem envFrameEq_refl (e : Environment) : envFrameEq e e :=
  ⟨rfl, rfl, rfl, rfl, rfl⟩

theorem envFrameEq_trans {a b c : Environment} (h1 : envFrameEq a b)
    (h2 : envFrameEq b c) : envFrameEq a c :=
  ⟨h2.1.trans h1.1, h2.2.1.trans h1.2.1, h2.2.2.1.trans h1.2.2.1,
    h2.2.2.2.1.trans h1.2.2.2.1, h2.2.2.2.2.trans h1.2.2.2.2⟩

theorem forall2_envFrame_refl (l : List Environment) : List.Forall₂ envFrameEq l l := by
  induction l with
  | nil => exact List.Forall₂.nil
  | cons a tl ih => exact List.Forall₂.cons (envFrameEq_refl a) ih

theorem forall2_envFrame_trans :
    ∀ {a b c : List Environment}, List.Forall₂ envFrameEq a b →
      List.Forall₂ envFrameEq b c → List.Forall₂ envFrameEq a c := by
  intro a b c h1
  induction h1 generalizing c with
  | nil =>
    intro h2
    cases h2
    exact List.Forall₂.nil
  | cons hab _ ih =>
    intro h2
    cases h2 with
    | cons hbc htl2 => exact List.Forall₂.cons (envFrameEq_trans hab hbc) (ih htl2)

theorem forall2_envFrame_set (envs : List Environment) (id : String)
    (st : EnvironmentStatus) (now : Nat) :
    List.Forall₂ envFrameEq envs (setEnvironmentFields envs id st now) := by
  induction envs with
  | nil => exact List.Forall₂.nil
  | cons e tl ih =>
    unfold setEnvironmentFields
    rw [List.map_cons]
    refine List.Forall₂.cons ?_ ih
    by_cases he : (e.id == id) = true
    · rw [if_pos he]
      exact ⟨rfl, rfl, rfl, rfl, rfl⟩
    · rw [if_neg he]
      exact envFrameEq_refl e

theorem sweepLoop_env_frame (t : Nat) (l : List Reservation) :
    ∀ db : DB, List.Forall₂ envFrameEq db.environments (sweepLoop t l db).1.environments := by
  induction l with
  | nil => intro db; exact forall2_envFrame_refl _
  | cons r rest ih =>
    intro db
    unfold sweepLoop
    by_cases hr : r.endTime < t
    · rw [if_pos hr]
      unfold UpdateEnvironmentStatus
      by_cases he : (db.environments.any fun e => e.id == r.environmentId) = true
      · rw [if_pos he]
        show List.Forall₂ envFrameEq db.environments
          (sweepLoop t rest { db with
            environments :=
              setEnvironmentFields db.environments r.environmentId .FREE t }).1.environments
        exact forall2_envFrame_trans (forall2_envFrame_set _ _ _ _)
          (ih { db with
            environments := setEnvironmentFields db.environments r.environmentId .FREE t })
      · rw [if_neg he]
        exact forall2_envFrame_refl _
    · rw [if_neg hr]
      exact ih db

/-! ### C9: a sweeper cycle never writes to the ledger, and writes only
status and lastUpdated in the registry -/

/-- C9: after any sweeper cycle the reservations table is exactly what
it was, and every environment record agrees with its pre-cycle record on
every field other than `status` and `lastUpdated`. -/
theorem c9_sweeper_frame (db : DB) (listNow checkNow : Nat) :
    (CheckExpiredReservations db listNow checkNow).1.reservations = db.reservations ∧
    List.Forall₂ envFrameEq db.environments
      (CheckExpiredReservations db listNow checkNow).1.environments :=
  ⟨sweepLoop_reservations _ _ _, sweepLoop_env_frame _ _ _⟩

/-! ### C2: the sweeper misses reservations that are already expired -/

/-- The `env-1` environment, currently RESERVED, for the C2 failing
input. -/
def c2env : Environment :=
  { id := "env-1", name := "E", description := "", status := .RESERVED,
    createdBy := "admin", createdAt := 0, lastUpdated := 0 }

/-- A reservation created at minute 0 with durationMinutes = 10, so its
endTime is minute 10. -/
def c2res : Reservation :=
  { id := "r1", environmentId := "env-1", username := "alice", startTime := 0,
    endTime := 10, feature := "f", gitBranch := "", jiraUrl := "", createdAt := 0,
    lastUpdated := 0 }

/-- The C2 failing input: `env-1` RESERVED, its reservation expired at
minute 10, sweeper cycle run at minute 11. -/
def c2db : DB := { environments := [c2env], reservations := [c2res] }

/-- C2 (code behaviour at the failing input): a sweeper cycle whose two
`time.Now()` readings coincide never changes anything — the expired
reservation is filtered out by `ListActiveReservations` (`endTime >
now`) before the expiry loop can see it.  In particular the cycle run at
minute 11 over the reservation that expired at minute 10 returns the
state unchanged and leaves `env-1` RESERVED, where the claim demands it
become FREE. -/
theorem c2_sweeper_misses_expired :
    (∀ (db : DB) (t : Nat), CheckExpiredReservations db t t = (db, none)) ∧
    CheckExpiredReservations c2db 11 11 = (c2db, none) ∧
    (getEnvironment c2db "env-1").map Environment.status = some .RESERVED := by
  have hall : ∀ (db : DB) (t : Nat), CheckExpiredReservations db t t = (db, none) := by
    intro db t
    unfold CheckExpiredReservations
    apply sweepLoop_no_expired
    intro r hr
    have h1 : t < r.endTime := by
      have := (List.mem_filter.mp hr).2
      exact of_decide_eq_true this
    omega
  exact ⟨hall, hall c2db 11, by decide⟩

/-! ### C5: a single failing resource aborts the sweep cycle -/

/-- The reachable environment for the C5 counterexample, RESERVED. -/
def c5env2 : Environment :=
  { id := "e2", name := "E2", description := "", status := .RESERVED,
    createdBy := "admin", createdAt := 0, lastUpdated := 0 }

/-- A reservation whose environment id matches no registry record, so
freeing it fails the `attribute_exists(id)` condition. -/
def c5resGhost : Reservation :=
  { id := "rg", environmentId := "ghost", username := "alice", startTime := 0,
    endTime := 6, feature := "f", gitBranch := "", jiraUrl := "", createdAt := 0,
    lastUpdated := 0 }

/-- A second expired reservation, on the existing environment `e2`. -/
def c5res2 : Reservation :=
  { id := "r2", environmentId := "e2", username := "bob", startTime := 0,
    endTime := 7, feature := "g", gitBranch := "", jiraUrl := "", createdAt := 0,
    lastUpdated := 0 }

/-- The C5 counterexample state: two reservations that both expire
inside the cycle's window (listed at minute 5, checked at minute 10);
the first references a missing environment. -/
def c5db : DB := { environments := [c5env2], reservations := [c5resGhost, c5res2] }

/-- C5 counterexample: the failure to free the first reservation's
resource aborts the whole cycle — the error is returned and the second
expired reservation's environment `e2` is NOT processed (it stays
RESERVED, where the claim demands it be processed to FREE). -/
theorem c5_counterexample :
    CheckExpiredReservations c5db 5 10 = (c5db, some .conditionFailed) ∧
    (getEnvironment (CheckExpiredReservations c5db 5 10).1 "e2").map
      Environment.status = some .RESERVED ∧
    (getEnvironment (CheckExpiredReservations c5db 5 10).1 "e2").map
      Environment.status ≠ some .FREE := by
  decide

theorem setEnvFields_any (envs : List Environment) (id : String)
    (st : EnvironmentStatus) (now : Nat) (id2 : String) :
    ((setEnvironmentFields envs id st now).any fun e => e.id == id2) =
      (envs.any fun e => e.id == id2) := by
  induction envs with
  | nil => rfl
  | cons e tl ih =>
    unfold setEnvironmentFields at ih ⊢
    rw [List.map_cons, List.any_cons, List.any_cons, ih]
    by_cases hbe : (e.id == id) = true
    · rw [if_pos hbe]
    · rw [if_neg hbe]

theorem sweepLoop_any (t : Nat) (id2 : String) (l : List Reservation) :
    ∀ db : DB, ((sweepLoop t l db).1.environments.any fun e => e.id == id2) =
      (db.environments.any fun e => e.id == id2) := by
  induction l with
  | nil => intro db; rfl
  | cons r rest ih =>
    intro db
    unfold sweepLoop
    by_cases hr : r.endTime < t
    · rw [if_pos hr]
      unfold UpdateEnvironmentStatus
      by_cases hany : (db.environments.any fun e => e.id == r.environmentId) = true
      · rw [if_pos hany]
        show ((sweepLoop t rest { db with
            environments :=
              setEnvironmentFields db.environments r.environmentId .FREE t
            }).1.environments.any fun e => e.id == id2) = _
        rw [ih]
        exact setEnvFields_any _ _ _ _ _
      · rw [if_neg hany]
    · rw [if_neg hr]
      exact ih db

theorem sweepLoop_cons (t : Nat) (r : Reservation) (rest : List Reservation) (db : DB) :
    sweepLoop t (r :: rest) db =
      if r.endTime < t then
        match UpdateEnvironmentStatus db r.environmentId .FREE t with
        | .ok db2 => sweepLoop t rest db2
        | .error e => (db, some e)
      else sweepLoop t rest db := by
  rfl

theorem sweepLoop_append (t : Nat) (l1 l2 : List Reservation) :
    ∀ db : DB, (sweepLoop t l1 db).2 = none →
      sweepLoop t (l1 ++ l2) db = sweepLoop t l2 (sweepLoop t l1 db).1 := by
  induction l1 with
  | nil => intro db _; rfl
  | cons x l1x ih =>
    intro db h
    by_cases hx : x.endTime < t
    · cases hupd : UpdateEnvironmentStatus db x.environmentId .FREE t with
      | ok db2 =>
        have e1 : sweepLoop t ((x :: l1x) ++ l2) db = sweepLoop t (l1x ++ l2) db2 := by
          rw [List.cons_append, sweepLoop_cons, if_pos hx, hupd]
        have e2 : sweepLoop t (x :: l1x) db = sweepLoop t l1x db2 := by
          rw [sweepLoop_cons, if_pos hx, hupd]
        rw [e2] at h
        rw [e1, e2]
        exact ih db2 h
      | error e =>
        exfalso
        have e2 : sweepLoop t (x :: l1x) db = (db, some e) := by
          rw [sweepLoop_cons, if_pos hx, hupd]
        rw [e2] at h
        cases h
    · have e1 : sweepLoop t ((x :: l1x) ++ l2) db = sweepLoop t (l1x ++ l2) db := by
        rw [List.cons_append, sweepLoop_cons, if_neg hx]
      have e2 : sweepLoop t (x :: l1x) db = sweepLoop t l1x db := by
        rw [sweepLoop_cons, if_neg hx]
      rw [e2] at h
      rw [e1, e2]
      exact ih db h

theorem sweepLoop_ok_of_envs_exist (t : Nat) (l : List Reservation) :
    ∀ db : DB,
      (∀ x ∈ l, x.endTime < t →
        (db.environments.any fun e => e.id == x.environmentId) = true) →
      (sweepLoop t l db).2 = none := by
  induction l with
  | nil => intro db _; rfl
  | cons r rest ih =>
    intro db h
    unfold sweepLoop
    by_cases hr : r.endTime < t
    · rw [if_pos hr]
      have hany := h r (List.mem_cons_self r rest) hr
      unfold UpdateEnvironmentStatus
      rw [if_pos hany]
      show (sweepLoop t rest { db with
        environments :=
          setEnvironmentFields db.environments r.environmentId .FREE t }).2 = none
      refine ih _ ?_
      intro x hx hxe
      show ((setEnvironmentFields db.environments r.environmentId .FREE t).any
        fun e => e.id == x.environmentId) = true
      rw [setEnvFields_any]
      exact h x (List.mem_cons_of_mem _ hx) hxe
    · rw [if_neg hr]
      exact ih db fun x hx hxe => h x (List.mem_cons_of_mem _ hx) hxe

theorem set_find_status (envs : List Environment) (id : String)
    (st : EnvironmentStatus) (now : Nat)
    (h : (envs.any fun e => e.id == id) = true) :
    ((setEnvironmentFields envs id st now).find? (fun e => e.id == id)).map
      Environment.status = some st := by
  unfold setEnvironmentFields
  rw [find?_map_pres _ _ (fun a => by by_cases ha : (a.id == id) = true <;> simp [ha])]
  cases hfe : envs.find? (fun e => e.id == id) with
  | none =>
    obtain ⟨e, he, hpe⟩ := List.any_eq_true.mp h
    exact absurd hpe (List.find?_eq_none.mp hfe e he)
  | some e0 =>
    have hp : e0.id = id := by simpa using List.find?_some hfe
    simp [hp]

theorem setEnvFields_keeps_free (envs : List Environment) (id id2 : String) (now : Nat)
    (h : (envs.find? (fun e => e.id == id2)).map Environment.status = some .FREE) :
    ((setEnvironmentFields envs id .FREE now).find? (fun e => e.id == id2)).map
      Environment.status = some .FREE := by
  obtain ⟨e0, hfe, hst⟩ := Option.map_eq_some'.mp h
  unfold setEnvironmentFields
  rw [find?_map_pres _ _ (fun a => by by_cases ha : (a.id == id) = true <;> simp [ha]),
    hfe]
  simp only [Option.map_some']
  by_cases ha : (e0.id == id) = true
  · rw [if_pos ha]
  · rw [if_neg ha, hst]

theorem sweepLoop_keeps_free (t : Nat) (id2 : String) (l : List Reservation) :
    ∀ db : DB,
      ((db.environments.find? fun e => e.id == id2)).map Environment.status =
        some .FREE →
      (((sweepLoop t l db).1.environments.find? fun e => e.id == id2)).map
        Environment.status = some .FREE := by
  induction l with
  | nil => intro db h; exact h
  | cons r rest ih =>
    intro db h
    unfold sweepLoop
    by_cases hr : r.endTime < t
    · rw [if_pos hr]
      unfold UpdateEnvironmentStatus
      by_cases hany : (db.environments.any fun e => e.id == r.environmentId) = true
      · rw [if_pos hany]
        show (((sweepLoop t rest { db with
            environments :=
              setEnvironmentFields db.environments r.environmentId .FREE t
            }).1.environments.find? fun e => e.id == id2)).map
          Environment.status = some .FREE
        exact ih _ (setEnvFields_keeps_free _ _ _ _ h)
      · rw [if_neg hany]
        exact h
    · rw [if_neg hr]
      exact ih db h

theorem sweepLoop_frees (t : Nat) (l : List Reservation) :
    ∀ db : DB,
      (∀ x ∈ l, x.endTime < t →
        (db.environments.any fun e => e.id == x.environmentId) = true) →
      ∀ x ∈ l, x.endTime < t →
        (((sweepLoop t l db).1.environments.find? fun e =>
          e.id == x.environmentId)).map Environment.status = some .FREE := by
  induction l with
  | nil => intro db _ x hx; cases hx
  | cons r rest ih =>
    intro db h x hx hxe
    unfold sweepLoop
    by_cases hr : r.endTime < t
    · rw [if_pos hr]
      have hany := h r (List.mem_cons_self r rest) hr
      unfold UpdateEnvironmentStatus
      rw [if_pos hany]
      show (((sweepLoop t rest { db with
          environments :=
            setEnvironmentFields db.environments r.environmentId .FREE t
          }).1.environments.find? fun e => e.id == x.environmentId)).map
        Environment.status = some .FREE
      rcases List.mem_cons.mp hx with rfl | hx2
      · exact sweepLoop_keeps_free t x.environmentId rest _
          (set_find_status _ _ _ _ hany)
      · refine ih _ ?_ x hx2 hxe
        intro z hz hze
        show ((setEnvironmentFields db.environments r.environmentId .FREE t).any
          fun e => e.id == z.environmentId) = true
        rw [setEnvFields_any]
        exact h z (List.mem_cons_of_mem _ hz) hze
    · rw [if_neg hr]
      rcases List.mem_cons.mp hx with rfl | hx2
      · exact absurd hxe hr
      · exact ih db (fun z hz hze => h z (List.mem_cons_of_mem _ hz) hze) x hx2 hxe

/-- C5 amended: when the cycle's listing splits as `pre ++ r :: rest`
with every expired reservation of `pre` freeable (its environment
exists) and `r` expired but unfreeable (its environment is missing),
`CheckExpiredReservations` aborts at `r`, the first failing resource: it
returns the error, the final state is exactly the state after processing
`pre` alone — so no reservation after `r` in the scan order is processed
— and reservations earlier in the scan order keep the updates already
committed: every expired reservation of `pre` has its environment FREE
in the final state.  The error is returned to the ticker loop (which
logs it); the sweeper only retries at the next tick. -/
theorem c5_amended_abort_on_failure (db : DB) (listNow checkNow : Nat)
    (pre : List Reservation) (r : Reservation) (rest : List Reservation)
    (hlist : ListActiveReservations db listNow = pre ++ r :: rest)
    (hpre : ∀ x ∈ pre, x.endTime < checkNow →
      (db.environments.any fun e => e.id == x.environmentId) = true)
    (hexp : r.endTime < checkNow)
    (hmiss : (db.environments.any fun e => e.id == r.environmentId) = false) :
    CheckExpiredReservations db listNow checkNow =
      ((sweepLoop checkNow pre db).1, some .conditionFailed) ∧
    (∀ x ∈ pre, x.endTime < checkNow →
      (getEnvironment (CheckExpiredReservations db listNow checkNow).1
        x.environmentId).map Environment.status = some .FREE) := by
  have hpreok : (sweepLoop checkNow pre db).2 = none :=
    sweepLoop_ok_of_envs_exist checkNow pre db hpre
  have hmiss2 : ((sweepLoop checkNow pre db).1.environments.any
      fun e => e.id == r.environmentId) = false := by
    rw [sweepLoop_any]
    exact hmiss
  have habort : sweepLoop checkNow (r :: rest) (sweepLoop checkNow pre db).1 =
      ((sweepLoop checkNow pre db).1, some .conditionFailed) := by
    rw [sweepLoop_cons, if_pos hexp]
    unfold UpdateEnvironmentStatus
    rw [if_neg (by simp [hmiss2])]
  have hmain : CheckExpiredReservations db listNow checkNow =
      ((sweepLoop checkNow pre db).1, some .conditionFailed) := by
    unfold CheckExpiredReservations
    rw [hlist, sweepLoop_append checkNow pre (r :: rest) db hpreok, habort]
  refine ⟨hmain, ?_⟩
  intro x hx hxe
  rw [hmain]
  exact sweepLoop_frees checkNow pre db hpre x hx hxe

/-- The environment of the first expired reservation of the C5 witness
listing, RESERVED before the cycle and freed by it. -/
def c5envA : Environment :=
  { id := "ea", name := "EA", description := "", status := .RESERVED,
    createdBy := "admin", createdAt := 0, lastUpdated := 0 }

/-- The first expired reservation of the C5 witness listing; freeing its
environment `ea` succeeds. -/
def c5resA : Reservation :=
  { id := "ra", environmentId := "ea", username := "ann", startTime := 0,
    endTime := 6, feature := "a", gitBranch := "", jiraUrl := "", createdAt := 0,
    lastUpdated := 0 }

/-- The C5 witness state: three reservations expiring inside the cycle's
window; the first is freeable, the second references a missing
environment, the third is never reached. -/
def c5dbW : DB :=
  { environments := [c5envA, c5env2],
    reservations := [c5resA, c5resGhost, c5res2] }

theorem c5_witness :
    ListActiveReservations c5dbW 5 = [c5resA] ++ c5resGhost :: [c5res2] ∧
    (∀ x ∈ [c5resA], x.endTime < 10 →
      (c5dbW.environments.any fun e => e.id == x.environmentId) = true) ∧
    c5resGhost.endTime < 10 ∧
    (c5dbW.environments.any fun e => e.id == c5resGhost.environmentId) = false ∧
    (CheckExpiredReservations c5dbW 5 10 =
        ((sweepLoop 10 [c5resA] c5dbW).1, some .conditionFailed) ∧
      (∀ x ∈ [c5resA], x.endTime < 10 →
        (getEnvironment (CheckExpiredReservations c5dbW 5 10).1
          x.environmentId).map Environment.status = some .FREE)) :=
  ⟨by decide, by decide, by decide, by decide,
    c5_amended_abort_on_failure c5dbW 5 10 [c5resA] c5resGhost [c5res2]
      (by decide) (by decide) (by decide) (by decide)⟩

/-! ### Equations for CreateReservation -/

theorem create_eq_notfound {db : DB} {rsv : Reservation} {newId : String} {t2 : Nat}
    (henv : getEnvironment db rsv.environmentId = none) :
    CreateReservation db rsv newId t2 = .error .envNotFound := by
  unfold CreateReservation
  rw [henv]

theorem create_eq_conflict {db : DB} {rsv : Reservation} {newId : String} {t2 : Nat}
    {env : Environment} (henv : getEnvironment db rsv.environmentId = some env)
    (hst : env.status ≠ .FREE) :
    CreateReservation db rsv newId t2 = .error .envAlreadyReserved := by
  have hb : (env.status == EnvironmentStatus.FREE) = false := by simpa using hst
  unfold CreateReservation
  rw [henv]
  simp [hb]

theorem create_eq_ok {db : DB} {rsv : Reservation} {newId : String} {t2 : Nat}
    {env : Environment} (henv : getEnvironment db rsv.environmentId = some env)
    (hst : env.status = .FREE) :
    CreateReservation db rsv newId t2 =
      .ok ({ rsv with id := newId, createdAt := t2, lastUpdated := t2 },
        { db with
          reservations := db.reservations ++
            [{ rsv with id := newId, createdAt := t2, lastUpdated := t2 }],
          environments :=
            setEnvironmentFields db.environments rsv.environmentId .RESERVED t2 }) := by
  have hb : (env.status == EnvironmentStatus.FREE) = true := by simpa using hst
  unfold CreateReservation transactCreateReservation
  rw [henv]
  simp only [hb, if_true]
  rw [show getEnvironment db
      ({ rsv with id := newId, createdAt := t2, lastUpdated := t2 } :
        Reservation).environmentId = some env from henv]
  simp [hb]

theorem create_ok_inv {db : DB} {rsv : Reservation} {newId : String} {t2 : Nat}
    {created : Reservation} {db2 : DB}
    (h : CreateReservation db rsv newId t2 = .ok (created, db2)) :
    ∃ env, getEnvironment db rsv.environmentId = some env ∧ env.status = .FREE ∧
      created = { rsv with id := newId, createdAt := t2, lastUpdated := t2 } ∧
      db2 = { db with
        reservations := db.reservations ++ [created],
        environments :=
          setEnvironmentFields db.environments rsv.environmentId .RESERVED t2 } := by
  cases henv : getEnvironment db rsv.environmentId with
  | none =>
    rw [create_eq_notfound henv] at h
    cases h
  | some env =>
    by_cases hst : env.status = EnvironmentStatus.FREE
    · rw [create_eq_ok henv hst] at h
      injection h with hpair
      have hc : created = { rsv with id := newId, createdAt := t2, lastUpdated := t2 } :=
        (congrArg Prod.fst hpair).symm
      have hd : db2 = { db with
          reservations := db.reservations ++
            [{ rsv with id := newId, createdAt := t2, lastUpdated := t2 }],
          environments :=
            setEnvironmentFields db.environments rsv.environmentId .RESERVED t2 } :=
        (congrArg Prod.snd hpair).symm
      refine ⟨env, rfl, hst, hc, ?_⟩
      rw [hd, hc]
    · rw [create_eq_conflict henv hst] at h
      cases h

/-! ### C10: CreateReservation ignores caller-supplied id and timestamps -/

/-- C10: the result of `CreateReservation` is independent of the
caller-supplied `id`, `createdAt` and `lastUpdated`, and on success the
stored record carries the freshly generated id and both timestamps equal
to the creation time, appended to the ledger. -/
theorem c10_create_overwrites_fields (db : DB) (rsv : Reservation) (newId : String)
    (now : Nat) :
    (∀ (a : String) (b c : Nat),
      CreateReservation db { rsv with id := a, createdAt := b, lastUpdated := c } newId now =
        CreateReservation db rsv newId now) ∧
    (∀ created db2, CreateReservation db rsv newId now = .ok (created, db2) →
      created = { rsv with id := newId, createdAt := now, lastUpdated := now } ∧
      db2.reservations = db.reservations ++ [created]) := by
  constructor
  · intro a b c
    rfl
  · intro created db2 h
    obtain ⟨env, _, _, hcreated, hdb2⟩ := create_ok_inv h
    exact ⟨hcreated, by rw [hdb2]⟩

/-- An available environment, for witnesses that need a successful
Reserve. -/
def envFreeW : Environment :=
  { id := "e1", name := "E", description := "", status := .FREE,
    createdBy := "admin", createdAt := 0, lastUpdated := 0 }

/-- A one-environment database whose environment is FREE. -/
def dbFreeW : DB := { environments := [envFreeW], reservations := [] }

/-- The record `CreateReservation` actually stores for `rsvW` when the
fresh id is "fresh-id" and the clock reads 5: the caller's id
"caller-id" and timestamps 7/7 are overwritten. -/
def rsvStoredW : Reservation :=
  { id := "fresh-id", environmentId := "e1", username := "alice", startTime := 0,
    endTime := 30, feature := "f", gitBranch := "", jiraUrl := "", createdAt := 5,
    lastUpdated := 5 }

/-- The database after the successful Reserve of the C10 witness. -/
def dbAfterCreateW : DB :=
  { environments := setEnvironmentFields dbFreeW.environments "e1" .RESERVED 5,
    reservations := [rsvStoredW] }

theorem c10_witness :
    (CreateReservation dbFreeW
        { rsvW with id := "junk", createdAt := 99, lastUpdated := 98 } "fresh-id" 5 =
      CreateReservation dbFreeW rsvW "fresh-id" 5) ∧
    CreateReservation dbFreeW rsvW "fresh-id" 5 = .ok (rsvStoredW, dbAfterCreateW) ∧
    (rsvStoredW = { rsvW with id := "fresh-id", createdAt := 5, lastUpdated := 5 } ∧
      dbAfterCreateW.reservations = dbFreeW.reservations ++ [rsvStoredW]) :=
  ⟨(c10_create_overwrites_fields dbFreeW rsvW "fresh-id" 5).1 "junk" 99 98,
    by rfl,
    (c10_create_overwrites_fields dbFreeW rsvW "fresh-id" 5).2 rsvStoredW dbAfterCreateW
      (by rfl)⟩

/-! ### Equations for ReleaseReservation and the release handler -/

theorem release_eq_notfound {db : DB} {id user : String} {now : Nat}
    (h : GetReservation db id = none) :
    ReleaseReservation db id user now = .error .reservationNotFound := by
  unfold ReleaseReservation
  rw [h]

theorem release_eq_wrongowner {db : DB} {id user : String} {now : Nat}
    {r : Reservation} (h : GetReservation db id = some r) (hu : r.username ≠ user) :
    ReleaseReservation db id user now = .error .notYourReservation := by
  have hb : (r.username == user) = false := by simpa using hu
  unfold ReleaseReservation
  rw [h]
  simp [hb]

/-- The HTTP status a handler response reports, when it is an error. -/
def failureStatus {α : Type} : HandlerResult α → Option Nat
  | .failure s _ => some s
  | .success _ => none

/-! ### C8: the release handler reports every repository error as 500 -/

/-- C8 counterexample: a Release on an unknown reservation id and a
Release of someone else's reservation are both reported with HTTP status
500 — not the claimed 404-equivalent and 403-equivalent. -/
theorem c8_counterexample :
    failureStatus (handlerReleaseReservation dbEmptyW "alice" "r1" 0).1 = some 500 ∧
    failureStatus (handlerReleaseReservation dbReleaseW "bob" "r1" 3).1 = some 500 ∧
    some (500 : Nat) ≠ some 404 ∧
    some (500 : Nat) ≠ some 403 := by
  decide

/-- C8 amended: the release handler reports a Release on an unknown
reservation id and a Release of someone else's reservation both with
status 500; the two cases (and a substrate failure) are distinguishable
only by the message text appended to the fixed prefix, not by the status
code. -/
theorem c8_amended_release_errors_500 (db : DB) (user id : String) (now : Nat)
    (hid : id ≠ "") :
    (GetReservation db id = none →
      handlerReleaseReservation db user id now =
        (.failure 500 "Failed to release reservation: reservation not found", db)) ∧
    (∀ r, GetReservation db id = some r → r.username ≠ user →
      handlerReleaseReservation db user id now =
        (.failure 500
          "Failed to release reservation: you can only release your own reservations", db)) ∧
    "Failed to release reservation: reservation not found" ≠
      "Failed to release reservation: you can only release your own reservations" := by
  have hb : (id == "") = false := by simpa using hid
  refine ⟨?_, ?_, by decide⟩
  · intro h
    unfold handlerReleaseReservation
    rw [release_eq_notfound h]
    simp [hb]
    decide
  · intro r h hu
    unfold handlerReleaseReservation
    rw [release_eq_wrongowner h hu]
    simp [hb]
    decide

theorem c8_witness :
    ("r1" : String) ≠ "" ∧
    GetReservation dbEmptyW "r1" = none ∧
    handlerReleaseReservation dbEmptyW "alice" "r1" 0 =
      (.failure 500 "Failed to release reservation: reservation not found", dbEmptyW) ∧
    GetReservation dbReleaseW "r1" = some rsvExpiredW ∧
    rsvExpiredW.username ≠ "bob" ∧
    handlerReleaseReservation dbReleaseW "bob" "r1" 3 =
      (.failure 500
        "Failed to release reservation: you can only release your own reservations",
        dbReleaseW) :=
  ⟨by decide, by decide,
    (c8_amended_release_errors_500 dbEmptyW "alice" "r1" 0 (by decide)).1 (by decide),
    by decide, by decide,
    (c8_amended_release_errors_500 dbReleaseW "bob" "r1" 3 (by decide)).2.1 rsvExpiredW
      (by decide) (by decide)⟩

/-! ### C6: request validation in the create handler -/

/-- The four messages of the create handler's validation rejections. -/
def validationMessages : List String :=
  ["Environment ID is required", "Duration must be at least 10 minutes",
   "Duration cannot exceed 3 days (4320 minutes)", "Feature description is required"]

/-- A well-formed create request for environment `e1` with the given
duration, for the C6 boundary checks. -/
def c6req (d : Int) : ReservationCreateRequest :=
  { environmentId := "e1", durationMins := d, feature := "login-flow",
    gitBranch := "", jiraUrl := "" }

/-- The reservation the handler stores for `c6req d` against `dbFreeW`
at time 0 with fresh id "n1". -/
def c6created (d : Nat) : Reservation :=
  { id := "n1", environmentId := "e1", username := "alice", startTime := 0,
    endTime := d, feature := "login-flow", gitBranch := "", jiraUrl := "",
    createdAt := 0, lastUpdated := 0 }

/-- C6: the create handler answers with a validation error (one of the
four validation messages, status 400) and an untouched database exactly
when durationMins < 10, or durationMins > 4320, or the feature is empty,
or the environment id is empty; and at the boundaries, duration 9 is
rejected, 10 accepted, 4320 accepted, 4321 rejected. -/
theorem c6_validation_boundaries :
    (∀ (db : DB) (user : String) (req : ReservationCreateRequest) (newId : String)
      (now : Nat),
      (∃ m ∈ validationMessages,
        handlerCreateReservation db user req newId now = (.failure 400 m, db)) ↔
      (req.durationMins < 10 ∨ 4320 < req.durationMins ∨ req.feature = "" ∨
        req.environmentId = "")) ∧
    (handlerCreateReservation dbFreeW "alice" (c6req 9) "n1" 0).1 =
      .failure 400 "Duration must be at least 10 minutes" ∧
    (handlerCreateReservation dbFreeW "alice" (c6req 10) "n1" 0).1 =
      .success (c6created 10) ∧
    (handlerCreateReservation dbFreeW "alice" (c6req 4320) "n1" 0).1 =
      .success (c6created 4320) ∧
    (handlerCreateReservation dbFreeW "alice" (c6req 4321) "n1" 0).1 =
      .failure 400 "Duration cannot exceed 3 days (4320 minutes)" := by
  refine ⟨?_, by decide, by decide, by decide, by decide⟩
  intro db user req newId now
  by_cases h1 : req.environmentId = ""
  · have hh : handlerCreateReservation db user req newId now =
        (.failure 400 "Environment ID is required", db) := by
      unfold handlerCreateReservation
      rw [if_pos (by simpa using h1)]
    exact ⟨fun _ => Or.inr (Or.inr (Or.inr h1)),
      fun _ => ⟨"Environment ID is required", by decide, hh⟩⟩
  · by_cases h2 : req.durationMins < 10
    · have hh : handlerCreateReservation db user req newId now =
          (.failure 400 "Duration must be at least 10 minutes", db) := by
        unfold handlerCreateReservation
        rw [if_neg (by simpa using h1), if_pos h2]
      exact ⟨fun _ => Or.inl h2,
        fun _ => ⟨"Duration must be at least 10 minutes", by decide, hh⟩⟩
    · by_cases h3 : 4320 < req.durationMins
      · have hh : handlerCreateReservation db user req newId now =
            (.failure 400 "Duration cannot exceed 3 days (4320 minutes)", db) := by
          unfold handlerCreateReservation
          rw [if_neg (by simpa using h1), if_neg h2, if_pos h3]
        exact ⟨fun _ => Or.inr (Or.inl h3),
          fun _ => ⟨"Duration cannot exceed 3 days (4320 minutes)", by decide, hh⟩⟩
      · by_cases h4 : req.feature = ""
        · have hh : handlerCreateReservation db user req newId now =
              (.failure 400 "Feature description is required", db) := by
            unfold handlerCreateReservation
            rw [if_neg (by simpa using h1), if_neg h2, if_neg h3,
              if_pos (by simpa using h4)]
          exact ⟨fun _ => Or.inr (Or.inr (Or.inl h4)),
            fun _ => ⟨"Feature description is required", by decide, hh⟩⟩
        · constructor
          · rintro ⟨m, hm, heq⟩
            unfold handlerCreateReservation at heq
            rw [if_neg (by simpa using h1), if_neg h2, if_neg h3,
              if_neg (by simpa using h4)] at heq
            split at heq
            · simp at heq
            · split at heq
              · have hmm : "Environment is already reserved" = m := by
                  have := congrArg Prod.fst heq
                  simpa using this
                rw [← hmm] at hm
                exact absurd hm (by decide)
              · simp only [] at heq
                split at heq
                · simp at heq
                · simp at heq
          · intro hrhs
            rcases hrhs with h | h | h | h
            · exact absurd h h2
            · exact absurd h h3
            · exact absurd h h4
            · exact absurd h h1

theorem c6_witness :
    (∃ m ∈ validationMessages,
      handlerCreateReservation dbFreeW "alice" (c6req 5) "n1" 0 =
        (.failure 400 m, dbFreeW)) ∧
    ((c6req 5).durationMins < 10 ∨ 4320 < (c6req 5).durationMins ∨
      (c6req 5).feature = "" ∨ (c6req 5).environmentId = "") :=
  ⟨(c6_validation_boundaries.1 dbFreeW "alice" (c6req 5) "n1" 0).mpr (by decide),
    by decide⟩

/-! ### Preservation of the mutual-exclusion invariant -/

theorem countActive_mono (db : DB) (envId : String) {t t2 : Nat} (h : t ≤ t2) :
    countActive db envId t2 ≤ countActive db envId t := by
  unfold countActive
  apply List.countP_mono_left
  intro r _ hp
  simp only [Bool.and_eq_true, decide_eq_true_eq] at hp
  simp only [Bool.and_eq_true, decide_eq_true_eq]
  exact ⟨hp.1, lt_of_le_of_lt h hp.2⟩

theorem statusInvariant_mono {db : DB} {t t2 : Nat} (h : t ≤ t2)
    (hinv : statusInvariant db t) : statusInvariant db t2 := by
  intro envId
  obtain ⟨h1, h2⟩ := hinv envId
  refine ⟨le_trans (countActive_mono db envId h) h1, ?_⟩
  intro hpos e he hid
  exact h2 (le_trans hpos (countActive_mono db envId h)) e he hid

theorem statusInvariant_empty {db : DB} (h : db.reservations = []) (t : Nat) :
    statusInvariant db t := by
  intro envId
  unfold countActive
  rw [h]
  constructor
  · simp
  · intro hpos
    simp at hpos

theorem statusInvariant_create {db db2 : DB} {rsv created : Reservation}
    {newId : String} {t2 : Nat}
    (h : CreateReservation db rsv newId t2 = .ok (created, db2))
    (hinv : statusInvariant db t2) : statusInvariant db2 t2 := by
  obtain ⟨env, henv, hst, hcreated, hdb2⟩ := create_ok_inv h
  have henv2 : db.environments.find? (fun e => e.id == rsv.environmentId) = some env := henv
  intro envId
  have hcount : countActive db2 envId t2 =
      countActive db envId t2 +
        List.countP (fun r => r.environmentId == envId && decide (t2 < r.endTime))
          [created] := by
    rw [hdb2]
    unfold countActive
    exact List.countP_append _ _ _
  by_cases henvid : envId = rsv.environmentId
  · have hzero : countActive db envId t2 = 0 := by
      by_contra hnz
      have hpos : 1 ≤ countActive db envId t2 := Nat.one_le_iff_ne_zero.mpr hnz
      have hres := (hinv envId).2 hpos env (List.mem_of_find?_eq_some henv2)
        (by rw [henvid]; simpa using List.find?_some henv2)
      rw [hst] at hres
      exact absurd hres (by decide)
    constructor
    · rw [hcount, hzero]
      simpa using @List.countP_le_length Reservation
        (fun r => r.environmentId == envId && decide (t2 < r.endTime)) [created]
    · intro _ e2 he2 hid2
      rw [hdb2] at he2
      unfold setEnvironmentFields at he2
      obtain ⟨e, he, hfe⟩ := List.mem_map.mp he2
      by_cases hbe : (e.id == rsv.environmentId) = true
      · rw [← hfe, if_pos hbe]
      · rw [if_neg hbe] at hfe
        rw [← hfe, henvid] at hid2
        exact absurd hid2 (by simpa using hbe)
  · have hsingle : List.countP
        (fun r => r.environmentId == envId && decide (t2 < r.endTime)) [created] = 0 := by
      have hc : created.environmentId = rsv.environmentId := by rw [hcreated]
      have hb : (created.environmentId == envId) = false := by
        simp only [hc, beq_eq_false_iff_ne]
        exact fun h => henvid h.symm
      simp [List.countP_cons, hb]
    constructor
    · rw [hcount, hsingle]
      simpa using (hinv envId).1
    · intro hpos e2 he2 hid2
      have hpos2 : 1 ≤ countActive db envId t2 := by omega
      rw [hdb2] at he2
      unfold setEnvironmentFields at he2
      obtain ⟨e, he, hfe⟩ := List.mem_map.mp he2
      by_cases hbe : (e.id == rsv.environmentId) = true
      · rw [← hfe, if_pos hbe]
      · rw [if_neg hbe] at hfe
        rw [← hfe] at hid2 ⊢
        exact (hinv envId).2 hpos2 e he hid2

theorem release_ok_inv {db db2 : DB} {id user : String} {now : Nat} {r : Reservation}
    (hfind : GetReservation db id = some r)
    (hrel : ReleaseReservation db id user now = .ok db2) :
    db2 = { db with
      reservations := db.reservations.map (fun x =>
        if x.id == id then { x with endTime := now, lastUpdated := now } else x),
      environments :=
        upsertEnvironmentStatus db.environments r.environmentId .FREE now } := by
  by_cases hu : (r.username == user) = true
  · have heq : ReleaseReservation db id user now = .ok { db with
        reservations := db.reservations.map (fun x =>
          if x.id == id then { x with endTime := now, lastUpdated := now } else x),
        environments :=
          upsertEnvironmentStatus db.environments r.environmentId .FREE now } := by
      unfold ReleaseReservation
      rw [hfind]
      simp [hu]
    rw [heq] at hrel
    injection hrel with h
    exact h.symm
  · rw [release_eq_wrongowner hfind (by simpa using hu)] at hrel
    cases hrel

theorem statusInvariant_release {db db2 : DB} {id user : String} {t2 : Nat}
    {r : Reservation} (hfind : GetReservation db id = some r) (hact : t2 < r.endTime)
    (hrel : ReleaseReservation db id user t2 = .ok db2)
    (hinv : statusInvariant db t2) : statusInvariant db2 t2 := by
  have hdb2 := release_ok_inv hfind hrel
  have hfind2 : db.reservations.find? (fun x => x.id == id) = some r := hfind
  have hrid : r.id = id := by simpa using List.find?_some hfind2
  have hrmem : r ∈ db.reservations := List.mem_of_find?_eq_some hfind2
  intro envId
  have hcnt2 : countActive db2 envId t2 =
      List.countP ((fun x => x.environmentId == envId && decide (t2 < x.endTime)) ∘
        (fun x => if x.id == id then { x with endTime := t2, lastUpdated := t2 } else x))
        db.reservations := by
    rw [hdb2]
    unfold countActive
    exact List.countP_map _ _ _
  have hle : countActive db2 envId t2 ≤ countActive db envId t2 := by
    rw [hcnt2]
    unfold countActive
    apply List.countP_mono_left
    intro x _ hp
    by_cases hxid : (x.id == id) = true
    · exfalso
      simp only [Function.comp, hxid, if_pos] at hp
      simp at hp
    · simpa [Function.comp, hxid] using hp
  constructor
  · exact le_trans hle (hinv envId).1
  · intro hpos e2 he2 hid2
    by_cases hcase : envId = r.environmentId
    · exfalso
      have hpos2 : 0 < List.countP
          ((fun x => x.environmentId == envId && decide (t2 < x.endTime)) ∘
            (fun x => if x.id == id then { x with endTime := t2, lastUpdated := t2 }
              else x)) db.reservations := by
        rw [← hcnt2]
        omega
      obtain ⟨y, hymem, hpfy⟩ := List.countP_pos.mp hpos2
      by_cases hyid : (y.id == id) = true
      · simp only [Function.comp, hyid, if_pos] at hpfy
        simp at hpfy
      · have hpy : (fun x => x.environmentId == envId && decide (t2 < x.endTime)) y
            = true := by
          simpa [Function.comp, hyid] using hpfy
        have hyneqr : y ≠ r := by
          intro he
          rw [he, hrid] at hyid
          simp at hyid
        have hpr : (fun x => x.environmentId == envId && decide (t2 < x.endTime)) r
            = true := by
          simp only [Bool.and_eq_true, decide_eq_true_eq]
          exact ⟨by rw [hcase]; simp, hact⟩
        have h2c := two_le_countP
          (fun x => x.environmentId == envId && decide (t2 < x.endTime))
          hymem hrmem hyneqr hpy hpr
        have h1c : List.countP
            (fun x => x.environmentId == envId && decide (t2 < x.endTime))
            db.reservations ≤ 1 := (hinv envId).1
        omega
    · have hpos2 : 1 ≤ countActive db envId t2 := le_trans hpos hle
      rw [hdb2] at he2
      unfold upsertEnvironmentStatus at he2
      by_cases hany : (db.environments.any fun e => e.id == r.environmentId) = true
      · rw [if_pos hany] at he2
        unfold setEnvironmentFields at he2
        obtain ⟨e, he, hfe⟩ := List.mem_map.mp he2
        by_cases hbe : (e.id == r.environmentId) = true
        · exfalso
          rw [← hfe] at hid2
          rw [if_pos hbe] at hid2
          have hbe2 : e.id = r.environmentId := by simpa using hbe
          exact hcase (by rw [← hid2, hbe2])
        · rw [if_neg hbe] at hfe
          rw [← hfe] at hid2 ⊢
          exact (hinv envId).2 hpos2 e he hid2
      · rw [if_neg hany] at he2
        rcases List.mem_append.mp he2 with he | he
        · exact (hinv envId).2 hpos2 e2 he hid2
        · exfalso
          have he3 : e2 = blankEnvRecord r.environmentId .FREE t2 := by
            simpa using he
          rw [he3] at hid2
          simp only [blankEnvRecord] at hid2
          exact hcase hid2.symm

theorem sweepLoop_keeps_reserved (t2 : Nat) (envId : String) (l : List Reservation) :
    ∀ db : DB,
      (∀ e ∈ db.environments, e.id = envId → e.status = .RESERVED) →
      (∀ r ∈ l, r.environmentId = envId → ¬ r.endTime < t2) →
      ∀ e ∈ (sweepLoop t2 l db).1.environments, e.id = envId → e.status = .RESERVED := by
  induction l with
  | nil => intro db h1 _ e he hid; exact h1 e he hid
  | cons r rest ih =>
    intro db h1 h2
    unfold sweepLoop
    by_cases hr : r.endTime < t2
    · rw [if_pos hr]
      unfold UpdateEnvironmentStatus
      by_cases hany : (db.environments.any fun e => e.id == r.environmentId) = true
      · rw [if_pos hany]
        have hrenv : r.environmentId ≠ envId := by
          intro hre
          exact h2 r (List.mem_cons_self r rest) hre hr
        show ∀ e ∈ (sweepLoop t2 rest { db with
            environments :=
              setEnvironmentFields db.environments r.environmentId .FREE t2
            }).1.environments, e.id = envId → e.status = .RESERVED
        refine ih _ ?_ (fun x hx => h2 x (List.mem_cons_of_mem _ hx))
        intro e2 he2 hid2
        unfold setEnvironmentFields at he2
        obtain ⟨e, he, hfe⟩ := List.mem_map.mp he2
        by_cases hbe : (e.id == r.environmentId) = true
        · exfalso
          rw [← hfe] at hid2
          rw [if_pos hbe] at hid2
          have hbe2 : e.id = r.environmentId := by simpa using hbe
          exact hrenv (by rw [← hbe2, hid2])
        · rw [if_neg hbe] at hfe
          rw [← hfe] at hid2 ⊢
          exact h1 e he hid2
      · rw [if_neg hany]
        exact h1
    · rw [if_neg hr]
      exact ih db h1 (fun x hx => h2 x (List.mem_cons_of_mem _ hx))

theorem statusInvariant_sweep {db : DB} {t1 t2 : Nat} (h12 : t1 ≤ t2)
    (hinv : statusInvariant db t1) :
    statusInvariant (CheckExpiredReservations db t1 t2).1 t2 := by
  intro envId
  have hres : (CheckExpiredReservations db t1 t2).1.reservations = db.reservations :=
    sweepLoop_reservations _ _ _
  have hcnt : countActive (CheckExpiredReservations db t1 t2).1 envId t2 =
      countActive db envId t2 := by
    unfold countActive
    rw [hres]
  have hmono := countActive_mono db envId h12
  constructor
  · rw [hcnt]
    exact le_trans hmono (hinv envId).1
  · intro hpos e he hid
    rw [hcnt] at hpos
    have hpos1 : 1 ≤ countActive db envId t1 := le_trans hpos hmono
    have hpos2 : 0 < List.countP
        (fun x => x.environmentId == envId && decide (t2 < x.endTime))
        db.reservations := hpos
    obtain ⟨y, hymem, hpy⟩ := List.countP_pos.mp hpos2
    have hpy2 : (y.environmentId == envId) = true ∧ t2 < y.endTime := by
      simpa [Bool.and_eq_true, decide_eq_true_eq] using hpy
    have hnoexp : ∀ rr ∈ ListActiveReservations db t1, rr.environmentId = envId →
        ¬ rr.endTime < t2 := by
      intro rr hrr hrenv hrexp
      have hrmem : rr ∈ db.reservations := (List.mem_filter.mp hrr).1
      have hract : t1 < rr.endTime := of_decide_eq_true (List.mem_filter.mp hrr).2
      have hyneq : y ≠ rr := by
        intro he2
        rw [he2] at hpy2
        omega
      have hq_y : (fun x => x.environmentId == envId && decide (t1 < x.endTime)) y
          = true := by
        simp only [Bool.and_eq_true, decide_eq_true_eq]
        exact ⟨hpy2.1, by omega⟩
      have hq_r : (fun x => x.environmentId == envId && decide (t1 < x.endTime)) rr
          = true := by
        simp only [Bool.and_eq_true, decide_eq_true_eq]
        exact ⟨by simpa using hrenv, hract⟩
      have h2c := two_le_countP
        (fun x => x.environmentId == envId && decide (t1 < x.endTime))
        hymem hrmem hyneq hq_y hq_r
      have h1c : List.countP
          (fun x => x.environmentId == envId && decide (t1 < x.endTime))
          db.reservations ≤ 1 := (hinv envId).1
      omega
    exact sweepLoop_keeps_reserved t2 envId (ListActiveReservations db t1) db
      (fun e2 he2 hid2 => (hinv envId).2 hpos1 e2 he2 hid2) hnoexp e he hid

theorem reachableSafe_invariant {db : DB} {t : Nat} (h : ReachableSafe db t) :
    statusInvariant db t := by
  induction h with
  | init db t hres => exact statusInvariant_empty hres t
  | reserveStep rsv newId t2 created db2 _ hle hcr ih =>
    exact statusInvariant_create hcr (statusInvariant_mono hle ih)
  | releaseStep id user r t2 db2 _ hle hfind hact hrel ih =>
    exact statusInvariant_release hfind hact hrel (statusInvariant_mono hle ih)
  | sweepStep t1 t2 _ hle1 hle2 ih =>
    exact statusInvariant_sweep hle2 (statusInvariant_mono hle1 ih)

/-! ### C1: mutual exclusion on safe traces, and its failure in general -/

/-- C1 amended: on every state reachable by Reserve, Release and
Sweeper-cycle steps from a reservation-free initial state in which every
Release acts on a reservation that is still active at release time, each
resource has at most one active reservation, and a Reserve at any later
time against a resource that has an active reservation fails and creates
no record. -/
theorem c1_amended_mutual_exclusion (db : DB) (t : Nat) (h : ReachableSafe db t) :
    (∀ envId, countActive db envId t ≤ 1) ∧
    (∀ (rsv : Reservation) (newId : String) (t2 : Nat), t ≤ t2 →
      1 ≤ countActive db rsv.environmentId t2 →
      ∀ out, CreateReservation db rsv newId t2 ≠ .ok out) := by
  have hinv := reachableSafe_invariant h
  constructor
  · intro envId
    exact (hinv envId).1
  · intro rsv newId t2 hle hact out hok
    obtain ⟨created, db2⟩ := out
    obtain ⟨env, henv, hst, _, _⟩ := create_ok_inv hok
    have henv2 : db.environments.find? (fun e => e.id == rsv.environmentId) = some env :=
      henv
    have hinv2 := statusInvariant_mono hle hinv
    have hres := (hinv2 rsv.environmentId).2 hact env (List.mem_of_find?_eq_some henv2)
      (by simpa using List.find?_some henv2)
    rw [hst] at hres
    exact absurd hres (by decide)

theorem c1_witness :
    ReachableSafe dbFreeW 0 ∧
    ((∀ envId, countActive dbFreeW envId 0 ≤ 1) ∧
      (∀ (rsv : Reservation) (newId : String) (t2 : Nat), 0 ≤ t2 →
        1 ≤ countActive dbFreeW rsv.environmentId t2 →
        ∀ out, CreateReservation dbFreeW rsv newId t2 ≠ .ok out)) :=
  ⟨ReachableSafe.init dbFreeW 0 rfl,
    c1_amended_mutual_exclusion dbFreeW 0 (ReachableSafe.init dbFreeW 0 rfl)⟩

/-- A caller record for the C1 counterexample trace, aimed at `e1`. -/
def cxRsv (u : String) (s en : Nat) (ft : String) : Reservation :=
  { id := "", environmentId := "e1", username := u, startTime := s, endTime := en,
    feature := ft, gitBranch := "", jiraUrl := "", createdAt := 0, lastUpdated := 0 }

/-- The `e1` environment at a given status and lastUpdated. -/
def cxEnv (st : EnvironmentStatus) (lu : Nat) : Environment :=
  { id := "e1", name := "E", description := "", status := st, createdBy := "admin",
    createdAt := 0, lastUpdated := lu }

/-- Alice's reservation record as it evolves (endTime and lastUpdated
change across the two releases of the trace). -/
def cxR1 (en lu : Nat) : Reservation :=
  { id := "r1", environmentId := "e1", username := "alice", startTime := 0,
    endTime := en, feature := "f", gitBranch := "", jiraUrl := "", createdAt := 0,
    lastUpdated := lu }

/-- Bob's reservation, active until minute 200. -/
def cxR2 : Reservation :=
  { id := "r2", environmentId := "e1", username := "bob", startTime := 2,
    endTime := 200, feature := "g", gitBranch := "", jiraUrl := "", createdAt := 2,
    lastUpdated := 2 }

/-- Carol's reservation, active until minute 300. -/
def cxR3 : Reservation :=
  { id := "r3", environmentId := "e1", username := "carol", startTime := 4,
    endTime := 300, feature := "h", gitBranch := "", jiraUrl := "", createdAt := 4,
    lastUpdated := 4 }

/-- Initial state of the C1 trace: `e1` FREE, no reservations. -/
def cxDb0 : DB := { environments := [cxEnv .FREE 0], reservations := [] }

/-- After alice reserves `e1` at minute 0 (until minute 100). -/
def cxDb1 : DB := { environments := [cxEnv .RESERVED 0], reservations := [cxR1 100 0] }

/-- After alice releases `r1` at minute 1. -/
def cxDb2 : DB := { environments := [cxEnv .FREE 1], reservations := [cxR1 1 1] }

/-- After bob reserves `e1` at minute 2 (until minute 200). -/
def cxDb3 : DB :=
  { environments := [cxEnv .RESERVED 2], reservations := [cxR1 1 1, cxR2] }

/-- After alice releases the stale `r1` AGAIN at minute 3: `e1` is
forced FREE although bob's `r2` is still active. -/
def cxDb4 : DB :=
  { environments := [cxEnv .FREE 3], reservations := [cxR1 3 3, cxR2] }

/-- After carol reserves `e1` at minute 4 (until minute 300): two active
reservations now reference `e1`. -/
def cxDb5 : DB :=
  { environments := [cxEnv .RESERVED 4], reservations := [cxR1 3 3, cxR2, cxR3] }

/-- C1 counterexample: a state reachable by Reserve and Release steps
alone in which TWO reservations with endTime > now reference `e1`, and
in which the final Reserve succeeded although an active reservation
already referenced `e1` — releasing an already-released reservation
forces the resource FREE and re-opens it while bob's reservation is
still active. -/
theorem c1_counterexample :
    Reachable cxDb5 4 ∧
    countActive cxDb5 "e1" 4 = 2 ∧
    1 ≤ countActive cxDb4 "e1" 4 ∧
    CreateReservation cxDb4 (cxRsv "carol" 4 300 "h") "r3" 4 = .ok (cxR3, cxDb5) := by
  refine ⟨?_, by decide, by decide, by rfl⟩
  have h0 : Reachable cxDb0 0 := .init cxDb0 0 rfl
  have h1 : Reachable cxDb1 0 :=
    .reserveStep (cxRsv "alice" 0 100 "f") "r1" 0 (cxR1 100 0) cxDb1 h0
      (Nat.le_refl 0) (by rfl)
  have h2 : Reachable cxDb2 1 := .releaseStep "r1" "alice" 1 cxDb2 h1 (by decide) (by rfl)
  have h3 : Reachable cxDb3 2 :=
    .reserveStep (cxRsv "bob" 2 200 "g") "r2" 2 cxR2 cxDb3 h2 (by decide) (by rfl)
  have h4 : Reachable cxDb4 3 := .releaseStep "r1" "alice" 3 cxDb4 h3 (by decide) (by rfl)
  exact .reserveStep (cxRsv "carol" 4 300 "h") "r3" 4 cxR3 cxDb5 h4 (by decide) (by rfl)

end DevReserve
